import Mathlib

/-!
# SSP Realty backend: shallow embedding and verification

This file embeds the Express/Mongoose backend of `src/index.ts` (SSP Realty)
into Lean 4 and proves properties of its authentication gate, login handler,
token service and CRUD resource handlers.

Modelling conventions:
* JSON documents are association lists `List (String × Value)`; field values
  are modelled atomically (strings, integers, booleans, null) since no handler
  inspects the inside of a value.
* Mongoose model construction (`new Model(body)`) is modelled with the default
  strict mode documented by Mongoose: body paths that are not schema paths are
  stripped, and schema defaults (the creation timestamp) are applied when the
  path is absent.
* `Date.now()` and JWT clock values are a single abstract integer clock.
* `jsonwebtoken`'s opaque signed string is modelled by an explicit `Token`
  structure together with an injective wire encoding; a signature is valid
  exactly when it was produced with the verifier's secret, and a token is
  expired exactly when the clock is at or past its expiry (as in
  `jsonwebtoken`, which rejects when `clockTimestamp >= exp`).
* `bcrypt.compare` is an abstract boolean comparison passed as a parameter;
  calling it on a non-string rejects (caught as a 500 by the handler).
-/

namespace SSP

/-- A JSON field value, modelled atomically. -/
inductive Value where
  | str (s : String)
  | num (n : Int)
  | bool (b : Bool)
  | null
deriving Repr, DecidableEq

/-- A stored document / request body: an ordered association list of fields. -/
abbrev Record := List (String × Value)

/-- First value bound to key `k` in record `r` (JS object field access). -/
def lookupField (r : Record) (k : String) : Option Value :=
  (r.find? (fun kv => kv.1 = k)).map (fun kv => kv.2)

/-- JS object spread update `\x7b...r, k: v\x7d`: every binding of `k` is
replaced by `v`; if `k` was absent it is appended. -/
def setField (r : Record) (k : String) (v : Value) : Record :=
  if (r.find? (fun kv => kv.1 = k)).isSome then
    r.map (fun kv => if kv.1 = k then (k, v) else kv)
  else r ++ [(k, v)]

/-- Does the document match the Mongo filter `\x7bid: i\x7d` used by the routes? -/
def matchesId (r : Record) (i : String) : Bool :=
  decide (lookupField r "id" = some (Value.str i))

/-- The creation-time sort key used by `.sort(\x7bcreated_at: -1\x7d)`. -/
def getCreated (r : Record) : Int :=
  match lookupField r "created_at" with
  | some (Value.num n) => n
  | _ => 0

/-- Top-level paths of `propertySchema` (src/index.ts lines 29-66). -/
def propertyPaths : List String :=
  ["id", "title", "location", "price", "beds", "baths", "sqft", "image",
   "type", "tag", "description", "amenities", "gallery", "phone",
   "longDescription", "pricingTiers", "constructionDetails", "furnishedItems",
   "offers", "launchDate", "possessionDate", "totalUnits", "soldOut",
   "booked", "available", "createdAt"]

/-- Top-level paths of `teamSchema` (lines 68-74). -/
def teamPaths : List String := ["id", "name", "role", "image", "createdAt"]

/-- Top-level paths of `contactSchema` (lines 76-82). -/
def contactPaths : List String := ["id", "name", "email", "message", "created_at"]

/-- Top-level paths of `leadSchema` (lines 84-93). -/
def leadPaths : List String :=
  ["id", "name", "email", "phone", "propertyType", "budget", "message", "created_at"]

/-- Mongoose strict-mode cast: keep only fields whose key is a schema path. -/
def strictFilter (paths : List String) (body : Record) : Record :=
  body.filter (fun kv => paths.contains kv.1)

/-- Mongoose document construction `new Model(body)`: strict-mode filtering
followed by the schema's creation-timestamp default when the path is absent. -/
def newModel (paths : List String) (tsField : String) (now : Int)
    (body : Record) : Record :=
  if ((strictFilter paths body).find? (fun kv => kv.1 = tsField)).isSome then
    strictFilter paths body
  else strictFilter paths body ++ [(tsField, Value.num now)]

/-- The four independent collections of the record store. -/
structure Store where
  properties : List Record
  team : List Record
  contacts : List Record
  leads : List Record
deriving Repr, DecidableEq

def emptyStore : Store := ⟨[], [], [], []⟩

/-- JS `String.prototype.split(sep)` over the characters of the string:
splits at every occurrence of the separator, keeping empty pieces. -/
def splitCharsOn (sep : Char) : List Char → List (List Char)
  | [] => [[]]
  | c :: cs =>
    let rest := splitCharsOn sep cs
    if c = sep then [] :: rest
    else match rest with
      | [] => [[c]]
      | w :: ws => (c :: w) :: ws

/-- JS `s.split(sep)` for a single-character separator. -/
def jsSplit (sep : Char) (s : String) : List String :=
  (splitCharsOn sep s.toList).map (fun w => String.mk w)

/-- `req.headers.authorization?.split(" ")[1]` with JS truthiness: a missing
header, a header with no second space-separated part, or an empty second part
all yield no token (src/index.ts line 103). -/
def extractToken (auth : Option String) : Option String :=
  match auth with
  | none => none
  | some h =>
    match (jsSplit ' ' h).drop 1 with
    | [] => none
    | t :: _ => if t = "" then none else some t

/-- The JWT payload signed by the login route: `\x7bemail, role\x7d`. -/
structure Claims where
  email : String
  role : String
deriving Repr, DecidableEq

/-- A decoded JWT: payload, issue time, expiry, and the signature modelled as
the key that produced it. -/
structure Token where
  claims : Claims
  iat : Int
  exp : Int
  sig : String
deriving Repr, DecidableEq

/-- `jwt.sign(claims, secret, \x7bexpiresIn: "24h"\x7d)` at clock `now`;
86400 is the number of seconds in the 24-hour window. -/
def jwtSign (c : Claims) (secret : String) (now : Int) : Token :=
  ⟨c, now, now + 86400, secret⟩

/-- Signature and expiry check of `jwt.verify` on an already-decoded token:
the claims are returned iff the signature was made with `secret` and the
clock is strictly before the expiry. -/
def jwtVerify (t : Token) (secret : String) (now : Int) : Option Claims :=
  if t.sig = secret ∧ now < t.exp then some t.claims else none

/-- Decimal integer parser (used by the wire decoding of tokens). -/
def parseNat? (cs : List Char) : Option Nat :=
  cs.foldl (fun acc c => match acc with
    | none => none
    | some n => if c.isDigit then some (n * 10 + (c.toNat - '0'.toNat)) else none)
    (some 0)

/-- Decimal integer parser on strings. -/
def parseInt? (s : String) : Option Int :=
  match s.toList with
  | [] => none
  | '-' :: rest => if rest = [] then none else (parseNat? rest).map (fun n => -(n : Int))
  | cs => (parseNat? cs).map (fun n => (n : Int))

/-- Wire encoding of a token as an opaque string. -/
def encodeToken (t : Token) : String :=
  t.claims.email ++ "|" ++ t.claims.role ++ "|" ++ toString t.iat ++ "|" ++
    toString t.exp ++ "|" ++ t.sig

/-- Wire decoding of a token string; any string not of the wire shape is
malformed and fails to decode. -/
def decodeToken (s : String) : Option Token :=
  match jsSplit '|' s with
  | [e, r, i, x, k] =>
    match parseInt? i, parseInt? x with
    | some iv, some xv => some ⟨⟨e, r⟩, iv, xv, k⟩
    | _, _ => none
  | _ => none

/-- `jwt.verify(tokenString, secret)` at clock `now`: decode, then check
signature and expiry; malformed strings fail. -/
def jwtVerifyStr (s : String) (secret : String) (now : Int) : Option Claims :=
  match decodeToken s with
  | none => none
  | some t => jwtVerify t secret now

/-- Outcome of the `verifyToken` middleware (src/index.ts lines 102-114). -/
inductive AuthOutcome where
  | authorized (c : Claims)
  | noToken
  | invalidToken
deriving Repr, DecidableEq

/-- The `try/catch` around `jwt.verify` in the middleware: a successful
verification authorizes the request with the decoded claims, a thrown error
is answered as an invalid token. -/
def verifyOutcome (secret : String) (now : Int) (s : String) : AuthOutcome :=
  match jwtVerifyStr s secret now with
  | some c => AuthOutcome.authorized c
  | none => AuthOutcome.invalidToken

/-- The auth gate: extract the second space-separated part of the
authorization header; absence yields `noToken`, a failed verification yields
`invalidToken`, otherwise the decoded claims are attached. -/
def authGate (secret : String) (now : Int) (auth : Option String) : AuthOutcome :=
  match extractToken auth with
  | none => AuthOutcome.noToken
  | some s => verifyOutcome secret now s

/-- HTTP responses produced by the routes. -/
inductive Resp where
  | okList (rs : List Record)
  | okRecord (r : Record)
  | okSuccess
  | okData (r : Record)
  | okToken (t : Token)
  | err (status : Nat) (msg : String)
deriving Repr, DecidableEq

/-- An incoming HTTP request: authorization header and JSON body. -/
structure Request where
  authorization : Option String
  body : Record
deriving Repr, DecidableEq

/-- Server configuration fixed at startup; an empty password hash models the
unset `ADMIN_PASSWORD_HASH` (JS falsy). -/
structure Config where
  adminEmail : String
  adminPasswordHash : String
  jwtSecret : String
deriving Repr, DecidableEq

/-- The ambient environment of a request: configuration, the abstract
`bcrypt.compare`, and the clock. -/
structure Env where
  cfg : Config
  bcryptCompare : String → String → Bool
  now : Int

/-- First document matching the filter `\x7bid: i\x7d` (`findOne`). -/
def findFirst (l : List Record) (i : String) : Option Record :=
  l.find? (fun r => matchesId r i)

/-- `deleteOne(\x7bid: i\x7d)`: remove the first matching document, if any. -/
def deleteFirst : List Record → String → List Record
  | [], _ => []
  | r :: rs, i => if matchesId r i then rs else r :: deleteFirst rs i

/-- Mongoose `$set` of each given top-level field onto a document (the cast a
plain-object update receives in `findOneAndUpdate`). -/
def applyUpdate (r : Record) (u : Record) : Record :=
  u.foldl (fun acc kv => setField acc kv.1 kv.2) r

/-- `findOneAndUpdate(\x7bid: i\x7d, u)`: update the first matching document in
place and also return the post-update document (`new: true` view); no match
leaves the collection unchanged and returns nothing. -/
def findOneAndUpdate : List Record → String → Record → List Record × Option Record
  | [], _, _ => ([], none)
  | r :: rs, i, u =>
    if matchesId r i then ((applyUpdate r u) :: rs, some (applyUpdate r u))
    else
      let res := findOneAndUpdate rs i u
      (r :: res.1, res.2)

/-- Insert into a list kept in descending `created_at` order. -/
def insertByCreatedDesc (r : Record) : List Record → List Record
  | [] => [r]
  | x :: xs =>
    if getCreated x ≤ getCreated r then r :: x :: xs
    else x :: insertByCreatedDesc r xs

/-- `.find().sort(\x7bcreated_at: -1\x7d)`: the collection sorted newest-first
by creation time. -/
def sortByCreatedDesc (l : List Record) : List Record :=
  l.foldr insertByCreatedDesc []

/-- The tail of the login handler once email and configuration checks have
passed: the bcrypt comparison, then token issuance.  A non-string password
makes `bcrypt.compare` reject, caught as a generic 500. -/
def passwordCheck (compare : String → String → Bool) (cfg : Config)
    (password : Option Value) (now : Int) : Resp :=
  match password with
  | some (Value.str p) =>
    if compare p cfg.adminPasswordHash then
      Resp.okToken (jwtSign ⟨cfg.adminEmail, "admin"⟩ cfg.jwtSecret now)
    else Resp.err 401 "Invalid email or password"
  | _ => Resp.err 500 "Login failed"

/-- `POST /api/auth/login` (src/index.ts lines 126-157): check the submitted
email against the configured admin email, then that a password hash is
configured, then the bcrypt comparison; on success sign a 24-hour admin
token. -/
def login (compare : String → String → Bool) (cfg : Config)
    (email password : Option Value) (now : Int) : Resp :=
  if email ≠ some (Value.str cfg.adminEmail) then
    Resp.err 401 "Invalid email or password"
  else if cfg.adminPasswordHash = "" then
    Resp.err 401 "Admin password not configured. Please set ADMIN_PASSWORD_HASH in .env"
  else passwordCheck compare cfg password now

/-- Wrap a handler in the `verifyToken` middleware: a rejected request is
short-circuited with a 401 and the store is untouched. -/
def withAuth (env : Env) (req : Request) (h : Store → Store × Resp)
    (st : Store) : Store × Resp :=
  match authGate env.cfg.jwtSecret env.now req.authorization with
  | AuthOutcome.authorized _ => h st
  | AuthOutcome.noToken => (st, Resp.err 401 "No token provided")
  | AuthOutcome.invalidToken => (st, Resp.err 401 "Invalid token")

/-- The routes of the API. -/
inductive Route where
  | getProperties
  | postProperties
  | getProperty (i : String)
  | putProperty (i : String)
  | deleteProperty (i : String)
  | getTeam
  | postTeam
  | putTeam (i : String)
  | deleteTeam (i : String)
  | postContact
  | getContact
  | postLeads
  | getLeads
  | login
deriving Repr, DecidableEq

/-- Is the route one of the token-protected mutating endpoints
(POST/PUT/DELETE on properties or team)? -/
def protectedMutating : Route → Bool
  | Route.postProperties => true
  | Route.putProperty _ => true
  | Route.deleteProperty _ => true
  | Route.postTeam => true
  | Route.putTeam _ => true
  | Route.deleteTeam _ => true
  | _ => false

/-- The request dispatcher: one case per route of src/index.ts, each the
direct embedding of its handler body. -/
def handle (env : Env) (route : Route) (req : Request) (st : Store) :
    Store × Resp :=
  match route with
  | Route.getProperties => (st, Resp.okList st.properties)
  | Route.postProperties =>
    withAuth env req (fun s =>
      let p := newModel propertyPaths "createdAt" env.now req.body
      ({ s with properties := s.properties ++ [p] }, Resp.okData p)) st
  | Route.getProperty i =>
    (st, match findFirst st.properties i with
      | none => Resp.err 404 "Property not found"
      | some r => Resp.okRecord r)
  | Route.putProperty i =>
    withAuth env req (fun s =>
      let res := findOneAndUpdate s.properties i (strictFilter propertyPaths req.body)
      ({ s with properties := res.1 }, Resp.okSuccess)) st
  | Route.deleteProperty i =>
    withAuth env req (fun s =>
      ({ s with properties := deleteFirst s.properties i }, Resp.okSuccess)) st
  | Route.getTeam => (st, Resp.okList st.team)
  | Route.postTeam =>
    withAuth env req (fun s =>
      let p := newModel teamPaths "createdAt" env.now req.body
      ({ s with team := s.team ++ [p] }, Resp.okData p)) st
  | Route.putTeam i =>
    withAuth env req (fun s =>
      let res := findOneAndUpdate s.team i (strictFilter teamPaths req.body)
      ({ s with team := res.1 },
        match res.2 with
        | none => Resp.err 404 "Team member not found"
        | some r => Resp.okData r)) st
  | Route.deleteTeam i =>
    withAuth env req (fun s =>
      ({ s with team := deleteFirst s.team i }, Resp.okSuccess)) st
  | Route.postContact =>
    let c := newModel contactPaths "created_at" env.now
      (setField req.body "id" (Value.str (toString env.now)))
    ({ st with contacts := st.contacts ++ [c] }, Resp.okData c)
  | Route.getContact => (st, Resp.okList (sortByCreatedDesc st.contacts))
  | Route.postLeads =>
    let c := newModel leadPaths "created_at" env.now
      (setField req.body "id" (Value.str (toString env.now)))
    ({ st with leads := st.leads ++ [c] }, Resp.okData c)
  | Route.getLeads =>
    withAuth env req (fun s => (s, Resp.okList (sortByCreatedDesc s.leads))) st
  | Route.login =>
    (st, login env.bcryptCompare env.cfg
      (lookupField req.body "email") (lookupField req.body "password") env.now)

/-- A concrete environment for witnesses: default admin email, some
configured hash, signing secret `"s"`, clock 5. -/
def demoEnv : Env := ⟨⟨"admin@ssprealty.com", "hash", "s"⟩, fun _ _ => true, 5⟩

/-- A concrete authorization header carrying a token signed with `"s"`,
issued at 0 and expiring at 86400, hence valid at clock 5. -/
def demoAuth : Option String := some "Bearer a|admin|0|86400|s"

/-- A store whose properties collection holds two records sharing the
external id `"x"` (duplicate creates are not rejected by the system). -/
def demoDupStore : Store :=
  ⟨[[("id", Value.str "x"), ("title", Value.str "A")],
    [("id", Value.str "x"), ("title", Value.str "B")]], [], [], []⟩

/-- A store whose properties collection holds a single record with id `"x"`. -/
def demoSingleStore : Store := ⟨[[("id", Value.str "x")]], [], [], []⟩

/-- A store with two leads, created at times 1 and 3. -/
def demoLeadsStore : Store :=
  ⟨[], [], [], [[("id", Value.str "1"), ("created_at", Value.num 1)],
                [("id", Value.str "2"), ("created_at", Value.num 3)]]⟩

/-- The contact body of the specification's scenario. -/
def demoContactBody : Record :=
  [("name", Value.str "Bob"), ("email", Value.str "b@x.com"),
   ("message", Value.str "Hi")]

/-! ## Helper lemmas on documents and collections -/

theorem lookupField_nil (k : String) : lookupField [] k = none := rfl

theorem lookupField_cons (a : String × Value) (r : Record) (k : String) :
    lookupField (a :: r) k = if a.1 = k then some a.2 else lookupField r k := by
  by_cases h : a.1 = k <;> simp [lookupField, List.find?_cons, h]

theorem lookupField_append_some {r₁ : Record} {k : String} {v : Value}
    (h : lookupField r₁ k = some v) (r₂ : Record) :
    lookupField (r₁ ++ r₂) k = some v := by
  induction r₁ with
  | nil => simp [lookupField_nil] at h
  | cons a r ih =>
    rw [lookupField_cons] at h
    rw [List.cons_append, lookupField_cons]
    by_cases ha : a.1 = k
    · simpa [ha] using h
    · rw [if_neg ha] at h ⊢; exact ih h

theorem lookupField_append_none {r₁ : Record} {k : String}
    (h : lookupField r₁ k = none) (r₂ : Record) :
    lookupField (r₁ ++ r₂) k = lookupField r₂ k := by
  induction r₁ with
  | nil => rfl
  | cons a r ih =>
    rw [lookupField_cons] at h
    rw [List.cons_append, lookupField_cons]
    by_cases ha : a.1 = k
    · simp [ha] at h
    · rw [if_neg ha] at h ⊢; exact ih h

theorem lookupField_strictFilter {paths : List String} {k : String}
    (h : paths.contains k = true) (body : Record) :
    lookupField (strictFilter paths body) k = lookupField body k := by
  induction body with
  | nil => rfl
  | cons a r ih =>
    rw [strictFilter, List.filter_cons]
    by_cases ha : a.1 = k
    · rw [ha, if_pos h, lookupField_cons, lookupField_cons, if_pos ha, if_pos ha]
    · by_cases hc : paths.contains a.1 = true
      · rw [if_pos hc, lookupField_cons, lookupField_cons, if_neg ha, if_neg ha]
        exact ih
      · rw [if_neg hc, lookupField_cons, if_neg ha]
        exact ih

theorem lookupField_strictFilter_none {paths : List String} {k : String}
    (h : paths.contains k = false) (body : Record) :
    lookupField (strictFilter paths body) k = none := by
  induction body with
  | nil => rfl
  | cons a r ih =>
    rw [strictFilter, List.filter_cons]
    by_cases hc : paths.contains a.1 = true
    · have ha : a.1 ≠ k := by
        intro e; rw [e, h] at hc; cases hc
      rw [if_pos hc, lookupField_cons, if_neg ha]
      exact ih
    · rw [if_neg hc]; exact ih

theorem find?_eq_none_of_lookupField {r : Record} {k : String}
    (h : lookupField r k = none) :
    r.find? (fun kv => decide (kv.1 = k)) = none := by
  unfold lookupField at h
  exact Option.map_eq_none'.mp h

theorem find?_isSome_of_lookupField {r : Record} {k : String} {w : Value}
    (h : lookupField r k = some w) :
    (r.find? (fun kv => decide (kv.1 = k))).isSome = true := by
  unfold lookupField at h
  cases hf : r.find? fun kv => decide (kv.1 = k)
  · rw [hf] at h; cases h
  · rfl

theorem lookupField_map_set_self {r : Record} {k : String} (v : Value)
    {w : Value} (h : lookupField r k = some w) :
    lookupField (r.map (fun kv => if kv.1 = k then (k, v) else kv)) k
      = some v := by
  induction r with
  | nil => cases h
  | cons a r ih =>
    rw [lookupField_cons] at h
    rw [List.map_cons]
    by_cases ha : a.1 = k
    · simp [ha, lookupField_cons]
    · rw [if_neg ha] at h
      simp only [if_neg ha]
      rw [lookupField_cons, if_neg ha]
      exact ih h

theorem lookupField_map_set_other {r : Record} {k q : String} (v : Value)
    (h : q ≠ k) :
    lookupField (r.map (fun kv => if kv.1 = k then (k, v) else kv)) q
      = lookupField r q := by
  induction r with
  | nil => rfl
  | cons a r ih =>
    rw [List.map_cons]
    by_cases ha : a.1 = k
    · have haq : a.1 ≠ q := by rw [ha]; exact Ne.symm h
      simp only [if_pos ha]
      rw [lookupField_cons, lookupField_cons, if_neg (Ne.symm h), if_neg haq]
      exact ih
    · simp only [if_neg ha]
      rw [lookupField_cons, lookupField_cons]
      by_cases hq : a.1 = q
      · rw [if_pos hq, if_pos hq]
      · rw [if_neg hq, if_neg hq]; exact ih

theorem lookupField_setField_self (r : Record) (k : String) (v : Value) :
    lookupField (setField r k v) k = some v := by
  unfold setField
  cases h : lookupField r k with
  | none =>
    rw [if_neg (by rw [find?_eq_none_of_lookupField h]; simp)]
    rw [lookupField_append_none h, lookupField_cons, if_pos rfl]
  | some w =>
    rw [if_pos (find?_isSome_of_lookupField h)]
    exact lookupField_map_set_self v h

theorem lookupField_setField_other (r : Record) {k : String} (v : Value)
    {q : String} (h : q ≠ k) :
    lookupField (setField r k v) q = lookupField r q := by
  unfold setField
  split
  · exact lookupField_map_set_other v h
  · cases hq : lookupField r q with
    | none =>
      rw [lookupField_append_none hq, lookupField_cons,
          if_neg (fun e => h e.symm), lookupField_nil]
    | some w => rw [lookupField_append_some hq]

theorem lookupField_newModel_of_mem {paths : List String} {k : String}
    (ts : String) (now : Int) {body : Record} {v : Value}
    (hk : paths.contains k = true) (hv : lookupField body k = some v) :
    lookupField (newModel paths ts now body) k = some v := by
  have h1 : lookupField (strictFilter paths body) k = some v := by
    rw [lookupField_strictFilter hk]; exact hv
  unfold newModel
  split
  · exact h1
  · exact lookupField_append_some h1 _

theorem lookupField_newModel_not_mem {paths : List String} {k ts : String}
    (now : Int) (body : Record)
    (hk : paths.contains k = false) (hts : paths.contains ts = true) :
    lookupField (newModel paths ts now body) k = none := by
  have h1 : lookupField (strictFilter paths body) k = none :=
    lookupField_strictFilter_none hk body
  have hne : ts ≠ k := by
    intro e; rw [e, hk] at hts; cases hts
  unfold newModel
  split
  · exact h1
  · rw [lookupField_append_none h1, lookupField_cons, if_neg hne, lookupField_nil]

theorem lookupField_newModel_ts {paths : List String} {ts : String}
    (now : Int) {body : Record}
    (hts : paths.contains ts = true) (hnone : lookupField body ts = none) :
    lookupField (newModel paths ts now body) ts = some (Value.num now) := by
  have h1 : lookupField (strictFilter paths body) ts = none := by
    rw [lookupField_strictFilter hts]; exact hnone
  unfold newModel
  rw [if_neg (by rw [find?_eq_none_of_lookupField h1]; simp)]
  rw [lookupField_append_none h1, lookupField_cons, if_pos rfl]

theorem deleteFirst_of_no_match {l : List Record} {i : String}
    (h : ∀ r ∈ l, matchesId r i = false) :
    deleteFirst l i = l := by
  induction l with
  | nil => rfl
  | cons a l ih =>
    rw [deleteFirst, if_neg (by rw [h a (List.mem_cons_self a l)]; simp)]
    rw [ih (fun r hr => h r (List.mem_cons_of_mem a hr))]

theorem deleteFirst_clears {l : List Record} {i : String}
    (h : l.countP (fun r => matchesId r i) ≤ 1) :
    ∀ r ∈ deleteFirst l i, matchesId r i = false := by
  induction l with
  | nil => intro r hr; cases hr
  | cons a l ih =>
    rw [List.countP_cons] at h
    by_cases ha : matchesId a i = true
    · rw [if_pos ha] at h
      have h0 : l.countP (fun r => matchesId r i) = 0 := by omega
      intro r hr
      rw [deleteFirst, if_pos ha] at hr
      have := List.countP_eq_zero.mp h0 r hr
      simpa using this
    · rw [if_neg ha] at h
      intro r hr
      rw [deleteFirst, if_neg (by simpa using ha)] at hr
      rcases List.mem_cons.mp hr with he | hm
      · rw [he]; simpa using ha
      · exact ih (by omega) r hm

theorem findFirst_cons (a : Record) (l : List Record) (i : String) :
    findFirst (a :: l) i
      = if matchesId a i = true then some a else findFirst l i := by
  by_cases h : matchesId a i = true <;> simp [findFirst, List.find?_cons, h]

theorem findOneAndUpdate_snd (l : List Record) (i : String) (u : Record) :
    (findOneAndUpdate l i u).2
      = (findFirst l i).map (fun r => applyUpdate r u) := by
  induction l with
  | nil => rfl
  | cons a l ih =>
    rw [findOneAndUpdate, findFirst_cons]
    by_cases h : matchesId a i = true
    · rw [if_pos h, if_pos h]; rfl
    · rw [if_neg h, if_neg h]; exact ih

theorem findOneAndUpdate_fst_of_none {l : List Record} {i : String}
    (u : Record) (h : findFirst l i = none) :
    (findOneAndUpdate l i u).1 = l := by
  induction l with
  | nil => rfl
  | cons a l ih =>
    rw [findFirst_cons] at h
    by_cases ha : matchesId a i = true
    · rw [if_pos ha] at h; cases h
    · rw [if_neg ha] at h
      rw [findOneAndUpdate, if_neg ha]
      show a :: (findOneAndUpdate l i u).1 = a :: l
      rw [ih h]

theorem insertByCreatedDesc_perm (r : Record) (l : List Record) :
    (insertByCreatedDesc r l).Perm (r :: l) := by
  induction l with
  | nil => exact List.Perm.refl _
  | cons x xs ih =>
    rw [insertByCreatedDesc]
    split
    · exact List.Perm.refl _
    · exact (ih.cons x).trans (List.Perm.swap r x xs)

theorem sortByCreatedDesc_cons (x : Record) (t : List Record) :
    sortByCreatedDesc (x :: t) = insertByCreatedDesc x (sortByCreatedDesc t) := rfl

theorem sortByCreatedDesc_perm (l : List Record) :
    (sortByCreatedDesc l).Perm l := by
  induction l with
  | nil => exact List.Perm.refl _
  | cons x xs ih =>
    rw [sortByCreatedDesc_cons]
    exact (insertByCreatedDesc_perm x _).trans (ih.cons x)

theorem insertByCreatedDesc_pairwise {l : List Record}
    (h : l.Pairwise (fun a b => getCreated b ≤ getCreated a)) (r : Record) :
    (insertByCreatedDesc r l).Pairwise (fun a b => getCreated b ≤ getCreated a) := by
  induction l with
  | nil => simp [insertByCreatedDesc]
  | cons x xs ih =>
    rcases List.pairwise_cons.mp h with ⟨hx, hxs⟩
    rw [insertByCreatedDesc]
    split
    · rename_i hle
      refine List.pairwise_cons.mpr ⟨?_, h⟩
      intro b hb
      rcases List.mem_cons.mp hb with he | hm
      · rw [he]; exact hle
      · exact le_trans (hx b hm) hle
    · rename_i hgt
      refine List.pairwise_cons.mpr ⟨?_, ih hxs⟩
      intro b hb
      have hb' := (insertByCreatedDesc_perm r xs).mem_iff.mp hb
      rcases List.mem_cons.mp hb' with he | hm
      · rw [he]; exact le_of_not_le hgt
      · exact hx b hm

theorem sortByCreatedDesc_pairwise (l : List Record) :
    (sortByCreatedDesc l).Pairwise (fun a b => getCreated b ≤ getCreated a) := by
  induction l with
  | nil => exact List.Pairwise.nil
  | cons x xs ih =>
    rw [sortByCreatedDesc_cons]
    exact insertByCreatedDesc_pairwise ih x

theorem insertByCreatedDesc_below {r c : Record} (m : List Record)
    (h : getCreated r < getCreated c) :
    insertByCreatedDesc r (c :: m) = c :: insertByCreatedDesc r m := by
  rw [insertByCreatedDesc, if_neg (not_le_of_lt h)]

theorem sortByCreatedDesc_append_max {l : List Record} {c : Record}
    (h : ∀ r ∈ l, getCreated r < getCreated c) :
    sortByCreatedDesc (l ++ [c]) = c :: sortByCreatedDesc l := by
  induction l with
  | nil => rfl
  | cons x xs ih =>
    rw [List.cons_append, sortByCreatedDesc_cons,
        ih (fun r hr => h r (List.mem_cons_of_mem x hr)),
        insertByCreatedDesc_below _ (h x (List.mem_cons_self x xs)),
        sortByCreatedDesc_cons]

/-! ## The decimal representation of an integer is never empty -/

theorem toDigitsCore_length (b : Nat) (fuel : Nat) :
    ∀ (n : Nat) (ds : List Char),
      ds.length + 1 ≤ (Nat.toDigitsCore b (fuel + 1) n ds).length := by
  induction fuel with
  | zero =>
    intro n ds
    rw [Nat.toDigitsCore]
    split
    · simp
    · rw [Nat.toDigitsCore]; simp
  | succ fuel ih =>
    intro n ds
    rw [Nat.toDigitsCore]
    split
    · simp
    · calc ds.length + 1 ≤ ds.length + 2 := by omega
        _ = ((n % b).digitChar :: ds).length + 1 := by simp
        _ ≤ _ := ih (n / b) ((n % b).digitChar :: ds)

theorem natRepr_ne_empty (n : Nat) : Nat.repr n ≠ "" := by
  intro h
  have hlen : 1 ≤ (Nat.toDigitsCore 10 (n + 1) n []).length :=
    toDigitsCore_length 10 n n []
  have hdata : (Nat.toDigits 10 n) = [] := by
    have := congrArg String.data h
    exact this
  rw [Nat.toDigits] at hdata
  rw [hdata] at hlen
  simp at hlen

theorem intToString_ne_empty (i : Int) : toString i ≠ "" := by
  cases i with
  | ofNat m => exact natRepr_ne_empty m
  | negSucc m =>
    intro h
    have h2 : ("-" ++ toString (Nat.succ m) : String) = "" := h
    have h3 := congrArg String.data h2
    rw [String.data_append] at h3
    cases h3

/-! ## Unfolding lemmas for the auth gate and login -/

theorem authGate_of_none {auth : Option String} (secret : String) (now : Int)
    (h : extractToken auth = none) :
    authGate secret now auth = AuthOutcome.noToken := by
  unfold authGate; rw [h]

theorem authGate_of_some {auth : Option String} {s : String} (secret : String)
    (now : Int) (h : extractToken auth = some s) :
    authGate secret now auth = verifyOutcome secret now s := by
  unfold authGate; rw [h]

theorem verifyOutcome_of_some {s : String} {c : Claims} (secret : String)
    (now : Int) (h : jwtVerifyStr s secret now = some c) :
    verifyOutcome secret now s = AuthOutcome.authorized c := by
  unfold verifyOutcome; rw [h]

theorem verifyOutcome_of_none {s : String} (secret : String) (now : Int)
    (h : jwtVerifyStr s secret now = none) :
    verifyOutcome secret now s = AuthOutcome.invalidToken := by
  unfold verifyOutcome; rw [h]

theorem jwtVerifyStr_of_undecodable {s : String} (secret : String) (now : Int)
    (h : decodeToken s = none) : jwtVerifyStr s secret now = none := by
  unfold jwtVerifyStr; rw [h]

/-! ## Claim theorems -/

/-- C1: every request to a protected mutating endpoint (POST/PUT/DELETE on
properties or team) whose authorization header yields no extractable token is
answered 401 "No token provided", the downstream handler never runs, and the
store is unchanged. -/
theorem protected_mutation_requires_token (env : Env) (route : Route)
    (req : Request) (st : Store)
    (hroute : protectedMutating route = true)
    (htok : extractToken req.authorization = none) :
    handle env route req st = (st, Resp.err 401 "No token provided") := by
  cases route <;> simp_all [protectedMutating, handle, withAuth, authGate]

/-- C1 witness: a concrete POST /api/team with no authorization header is
rejected with 401 and leaves the empty store empty. -/
theorem protected_mutation_requires_token_witness :
    handle demoEnv Route.postTeam ⟨none, []⟩ emptyStore
      = (emptyStore, Resp.err 401 "No token provided") :=
  protected_mutation_requires_token demoEnv Route.postTeam ⟨none, []⟩
    emptyStore rfl rfl

/-- C2 counterexample: with no password hash configured and a non-admin
email submitted, the login outcome is the invalid-credentials rejection,
not the configuration-missing rejection the claim requires (the email check
runs first, src/index.ts lines 131-139). -/
theorem login_config_counterexample :
    login (fun _ _ => false) ⟨"admin@ssprealty.com", "", "s"⟩
        (some (Value.str "someone@else.com")) (some (Value.str "pw")) 0
      = Resp.err 401 "Invalid email or password" ∧
    Resp.err 401 "Invalid email or password"
      ≠ Resp.err 401 "Admin password not configured. Please set ADMIN_PASSWORD_HASH in .env" := by
  decide

/-- C2 amended: the submitted-email check precedes the configuration check:
a non-admin email is rejected as invalid credentials even when no hash is
configured; with the admin email, a missing hash yields the
configuration-missing rejection, a failing hash comparison yields invalid
credentials, and otherwise login succeeds with a signed admin token. -/
theorem login_outcome (compare : String → String → Bool) (cfg : Config)
    (email password : Option Value) (now : Int) :
    (email ≠ some (Value.str cfg.adminEmail) →
        login compare cfg email password now
          = Resp.err 401 "Invalid email or password") ∧
    (email = some (Value.str cfg.adminEmail) → cfg.adminPasswordHash = "" →
        login compare cfg email password now
          = Resp.err 401 "Admin password not configured. Please set ADMIN_PASSWORD_HASH in .env") ∧
    (∀ p, email = some (Value.str cfg.adminEmail) → cfg.adminPasswordHash ≠ "" →
        password = some (Value.str p) → compare p cfg.adminPasswordHash = false →
        login compare cfg email password now
          = Resp.err 401 "Invalid email or password") ∧
    (∀ p, email = some (Value.str cfg.adminEmail) → cfg.adminPasswordHash ≠ "" →
        password = some (Value.str p) → compare p cfg.adminPasswordHash = true →
        login compare cfg email password now
          = Resp.okToken (jwtSign ⟨cfg.adminEmail, "admin"⟩ cfg.jwtSecret now)) := by
  refine ⟨?_, ?_, ?_, ?_⟩
  · intro h1
    unfold login
    rw [if_pos h1]
  · intro h1 h2
    unfold login
    rw [if_neg (not_not_intro h1), if_pos h2]
  · intro p h1 h2 h3 h4
    unfold login
    rw [if_neg (not_not_intro h1), if_neg h2]
    subst h3
    simp [passwordCheck, h4]
  · intro p h1 h2 h3 h4
    unfold login
    rw [if_neg (not_not_intro h1), if_neg h2]
    subst h3
    simp [passwordCheck, h4]

/-- C2 amended witness: with the admin email, a configured hash and a
succeeding comparison, the concrete login issues the signed admin token. -/
theorem login_outcome_witness :
    login (fun _ _ => true) ⟨"a@b.c", "h", "s"⟩ (some (Value.str "a@b.c"))
        (some (Value.str "pw")) 0
      = Resp.okToken (jwtSign ⟨"a@b.c", "admin"⟩ "s" 0) :=
  (login_outcome (fun _ _ => true) ⟨"a@b.c", "h", "s"⟩ (some (Value.str "a@b.c"))
    (some (Value.str "pw")) 0).2.2.2 "pw" rfl (by decide) rfl rfl

/-- C3 counterexample: a present authorization header with a non-Bearer
scheme (`Basic xyz`) yields an extractable second part, so the gate answers
InvalidToken, not the NoToken rejection the claim requires. -/
theorem auth_gate_nonbearer_counterexample :
    extractToken (some "Basic xyz") = some "xyz" ∧
    authGate "s" 0 (some "Basic xyz") = AuthOutcome.invalidToken ∧
    AuthOutcome.invalidToken ≠ AuthOutcome.noToken := by
  decide

/-- C3 amended: the gate rejects with NoToken exactly when no token is
extractable from the header (header absent, no second space-separated part,
or an empty second part); a header whose second part is a nonempty string is
passed to token verification regardless of its scheme word, so an
undecodable token under any scheme yields InvalidToken. -/
theorem auth_gate_no_token_iff (secret : String) (now : Int)
    (auth : Option String) :
    (authGate secret now auth = AuthOutcome.noToken ↔ extractToken auth = none) ∧
    (∀ s, extractToken auth = some s → decodeToken s = none →
        authGate secret now auth = AuthOutcome.invalidToken) := by
  refine ⟨⟨?_, ?_⟩, ?_⟩
  · intro h
    cases he : extractToken auth with
    | none => rfl
    | some s =>
      rw [authGate_of_some secret now he] at h
      cases hv : jwtVerifyStr s secret now with
      | none => rw [verifyOutcome_of_none secret now hv] at h; cases h
      | some c => rw [verifyOutcome_of_some secret now hv] at h; cases h
  · intro h
    exact authGate_of_none secret now h
  · intro s hs hd
    rw [authGate_of_some secret now hs]
    exact verifyOutcome_of_none secret now (jwtVerifyStr_of_undecodable secret now hd)

/-- C3 amended witness: the concrete header `Basic xyz` is answered with
InvalidToken via the second clause of the amended theorem. -/
theorem auth_gate_no_token_iff_witness :
    authGate "s" 0 (some "Basic xyz") = AuthOutcome.invalidToken :=
  (auth_gate_no_token_iff "s" 0 (some "Basic xyz")).2 "xyz" (by decide) (by decide)

/-- C6: any token issued by a successful login carries the admin claims, and
its verification is determined solely by the signing secret and the expiry
24 hours (86400 seconds) ahead of issuance: it is accepted at exactly the
times strictly before expiry under the issuing secret, and rejected at or
after expiry and under any other secret — no server-side state is
consulted. -/
theorem token_validity_window (compare : String → String → Bool) (cfg : Config)
    (email password : Option Value) (now : Int) (tk : Token)
    (hlogin : login compare cfg email password now = Resp.okToken tk) :
    tk = jwtSign ⟨cfg.adminEmail, "admin"⟩ cfg.jwtSecret now ∧
    tk.claims = ⟨cfg.adminEmail, "admin"⟩ ∧
    ∀ s t, jwtVerify tk s t
      = if s = cfg.jwtSecret ∧ t < now + 86400 then some ⟨cfg.adminEmail, "admin"⟩
        else none := by
  have htk : tk = jwtSign ⟨cfg.adminEmail, "admin"⟩ cfg.jwtSecret now := by
    unfold login at hlogin
    split at hlogin
    · cases hlogin
    · split at hlogin
      · cases hlogin
      · rcases password with _ | v
        · simp [passwordCheck] at hlogin
        · rcases v with p | n | b | _
          · rw [passwordCheck] at hlogin
            split at hlogin
            · injection hlogin with h; exact h.symm
            · cases hlogin
          · simp [passwordCheck] at hlogin
          · simp [passwordCheck] at hlogin
          · simp [passwordCheck] at hlogin
  subst htk
  refine ⟨rfl, rfl, ?_⟩
  intro s t
  show (if cfg.jwtSecret = s ∧ t < now + 86400
        then some (⟨cfg.adminEmail, "admin"⟩ : Claims) else none) = _
  by_cases hs : s = cfg.jwtSecret
  · by_cases ht : t < now + 86400
    · rw [if_pos ⟨hs.symm, ht⟩, if_pos ⟨hs, ht⟩]
    · rw [if_neg (fun hc => ht hc.2), if_neg (fun hc => ht hc.2)]
  · rw [if_neg (fun hc => hs hc.1.symm), if_neg (fun hc => hs hc.1)]

/-- C6 witness: a concrete issued token is accepted one second before the
24-hour expiry, rejected exactly at expiry, and rejected under a wrong
secret. -/
theorem token_validity_window_witness :
    jwtVerify (jwtSign ⟨"e", "admin"⟩ "s" 0) "s" 86399 = some ⟨"e", "admin"⟩ ∧
    jwtVerify (jwtSign ⟨"e", "admin"⟩ "s" 0) "s" 86400 = none ∧
    jwtVerify (jwtSign ⟨"e", "admin"⟩ "s" 0) "bad" 10 = none := by
  have h := token_validity_window (fun _ _ => true) ⟨"e", "h", "s"⟩
    (some (Value.str "e")) (some (Value.str "p")) 0
    (jwtSign ⟨"e", "admin"⟩ "s" 0) (by decide)
  refine ⟨?_, ?_, ?_⟩ <;> rw [h.2.2] <;> decide

/-- C5: for every authorized update by external id, PUT on a property
reports bare success whether or not any record matches, while PUT on a team
member returns the post-update record on a match and a 404 "Team member not
found" when no record matches. -/
theorem update_asymmetry (env : Env) (req : Request) (st : Store)
    (i : String) (c : Claims)
    (hauth : authGate env.cfg.jwtSecret env.now req.authorization
      = AuthOutcome.authorized c) :
    ((handle env (Route.putProperty i) req st).2 = Resp.okSuccess) ∧
    (findFirst st.team i = none →
      handle env (Route.putTeam i) req st
        = (st, Resp.err 404 "Team member not found")) ∧
    (∀ r, findFirst st.team i = some r →
      handle env (Route.putTeam i) req st
        = ({ st with
              team := (findOneAndUpdate st.team i (strictFilter teamPaths req.body)).1 },
           Resp.okData (applyUpdate r (strictFilter teamPaths req.body)))) := by
  refine ⟨?_, ?_, ?_⟩
  · simp [handle, withAuth, hauth]
  · intro hnone
    have h1 := findOneAndUpdate_fst_of_none
      (l := st.team) (i := i) (strictFilter teamPaths req.body) hnone
    have h2 := findOneAndUpdate_snd st.team i (strictFilter teamPaths req.body)
    rw [hnone] at h2
    simp only [Option.map_none'] at h2
    simp [handle, withAuth, hauth, h1, h2]
  · intro r hr
    have h2 := findOneAndUpdate_snd st.team i (strictFilter teamPaths req.body)
    rw [hr] at h2
    simp only [Option.map_some'] at h2
    simp [handle, withAuth, hauth, h2]

/-- C5 witness: an authorized PUT /api/team/42 against an empty store is
answered 404 "Team member not found". -/
theorem update_asymmetry_witness :
    handle demoEnv (Route.putTeam "42") ⟨demoAuth, []⟩ emptyStore
      = (emptyStore, Resp.err 404 "Team member not found") :=
  (update_asymmetry demoEnv ⟨demoAuth, []⟩ emptyStore "42" ⟨"a", "admin"⟩
    (by decide)).2.1 rfl

/-- C7: GET /api/leads is rejected 401 without a valid bearer token (no
token or invalid token), and when authorized returns all leads newest-first
by creation time; the list endpoints of the other collections answer without
consulting the gate at all. -/
theorem leads_protected_newest_first (env : Env) (req : Request) (st : Store) :
    (authGate env.cfg.jwtSecret env.now req.authorization = AuthOutcome.noToken →
      handle env Route.getLeads req st = (st, Resp.err 401 "No token provided")) ∧
    (authGate env.cfg.jwtSecret env.now req.authorization = AuthOutcome.invalidToken →
      handle env Route.getLeads req st = (st, Resp.err 401 "Invalid token")) ∧
    (∀ c, authGate env.cfg.jwtSecret env.now req.authorization = AuthOutcome.authorized c →
      handle env Route.getLeads req st = (st, Resp.okList (sortByCreatedDesc st.leads))) ∧
    (sortByCreatedDesc st.leads).Perm st.leads ∧
    (sortByCreatedDesc st.leads).Pairwise (fun a b => getCreated b ≤ getCreated a) ∧
    handle env Route.getProperties req st = (st, Resp.okList st.properties) ∧
    handle env Route.getTeam req st = (st, Resp.okList st.team) ∧
    handle env Route.getContact req st = (st, Resp.okList (sortByCreatedDesc st.contacts)) := by
  refine ⟨?_, ?_, ?_, sortByCreatedDesc_perm _, sortByCreatedDesc_pairwise _,
    rfl, rfl, rfl⟩
  · intro h; simp [handle, withAuth, h]
  · intro h; simp [handle, withAuth, h]
  · intro c h; simp [handle, withAuth, h]

/-- C7 witness: an authorized GET /api/leads on a concrete two-lead store
returns the leads newest-first. -/
theorem leads_protected_newest_first_witness :
    handle demoEnv Route.getLeads ⟨demoAuth, []⟩ demoLeadsStore
      = (demoLeadsStore,
         Resp.okList [[("id", Value.str "2"), ("created_at", Value.num 3)],
                      [("id", Value.str "1"), ("created_at", Value.num 1)]]) := by
  have h := (leads_protected_newest_first demoEnv ⟨demoAuth, []⟩
    demoLeadsStore).2.2.1 ⟨"a", "admin"⟩ (by decide)
  rw [h]
  decide

/-- C9 counterexample: with two property records sharing the external id
`"x"`, both authorized deletes report success but the second delete removes
the second duplicate, so the store state after the second delete differs
from the state after the first. -/
theorem delete_twice_counterexample :
    (handle demoEnv (Route.deleteProperty "x") ⟨demoAuth, []⟩ demoDupStore).2
      = Resp.okSuccess ∧
    (handle demoEnv (Route.deleteProperty "x") ⟨demoAuth, []⟩
        ((handle demoEnv (Route.deleteProperty "x") ⟨demoAuth, []⟩ demoDupStore).1)).2
      = Resp.okSuccess ∧
    (handle demoEnv (Route.deleteProperty "x") ⟨demoAuth, []⟩
        ((handle demoEnv (Route.deleteProperty "x") ⟨demoAuth, []⟩ demoDupStore).1)).1
      ≠ (handle demoEnv (Route.deleteProperty "x") ⟨demoAuth, []⟩ demoDupStore).1 := by
  decide

/-- C9 amended: every authorized DELETE on properties or team reports
success regardless of whether a record with the id existed; and whenever at
most one record bears the id (the intended id-uniqueness invariant), the
state after deleting the same id twice equals the state after the first
delete.  With duplicated ids the second delete removes a further record. -/
theorem delete_success_unique_idempotent (env : Env) (req : Request)
    (st : Store) (i : String) (c : Claims)
    (hauth : authGate env.cfg.jwtSecret env.now req.authorization
      = AuthOutcome.authorized c) :
    ((handle env (Route.deleteProperty i) req st).2 = Resp.okSuccess) ∧
    ((handle env (Route.deleteTeam i) req st).2 = Resp.okSuccess) ∧
    (st.properties.countP (fun r => matchesId r i) ≤ 1 →
      (handle env (Route.deleteProperty i) req
          ((handle env (Route.deleteProperty i) req st).1)).1
        = (handle env (Route.deleteProperty i) req st).1) ∧
    (st.team.countP (fun r => matchesId r i) ≤ 1 →
      (handle env (Route.deleteTeam i) req
          ((handle env (Route.deleteTeam i) req st).1)).1
        = (handle env (Route.deleteTeam i) req st).1) := by
  refine ⟨?_, ?_, ?_, ?_⟩
  · simp [handle, withAuth, hauth]
  · simp [handle, withAuth, hauth]
  · intro hc
    simp [handle, withAuth, hauth]
    exact deleteFirst_of_no_match (deleteFirst_clears hc)
  · intro hc
    simp [handle, withAuth, hauth]
    exact deleteFirst_of_no_match (deleteFirst_clears hc)

/-- C9 amended witness: on a store with a single record of id `"x"`, the
authorized delete reports success and a second delete leaves the state of
the first unchanged. -/
theorem delete_success_unique_idempotent_witness :
    (handle demoEnv (Route.deleteProperty "x") ⟨demoAuth, []⟩ demoSingleStore).2
      = Resp.okSuccess ∧
    (handle demoEnv (Route.deleteProperty "x") ⟨demoAuth, []⟩
        ((handle demoEnv (Route.deleteProperty "x") ⟨demoAuth, []⟩ demoSingleStore).1)).1
      = (handle demoEnv (Route.deleteProperty "x") ⟨demoAuth, []⟩ demoSingleStore).1 := by
  have h := delete_success_unique_idempotent demoEnv ⟨demoAuth, []⟩
    demoSingleStore "x" ⟨"a", "admin"⟩ (by decide)
  exact ⟨h.1, h.2.2.1 (by decide)⟩

/-- C4 counterexample: an authorized property create whose body carries the
unknown field `unknownField` succeeds, but the stored (and returned) record
does not contain that field — it is stripped, not persisted as given. -/
theorem create_unknown_field_counterexample :
    handle demoEnv Route.postProperties
        ⟨demoAuth, [("title", Value.str "T"), ("unknownField", Value.str "x")]⟩
        emptyStore
      = (⟨[[("title", Value.str "T"), ("createdAt", Value.num 5)]], [], [], []⟩,
         Resp.okData [("title", Value.str "T"), ("createdAt", Value.num 5)]) ∧
    lookupField [("title", Value.str "T"), ("unknownField", Value.str "x")]
        "unknownField" = some (Value.str "x") ∧
    lookupField [("title", Value.str "T"), ("createdAt", Value.num 5)]
        "unknownField" = none := by
  decide

/-- C4 amended: create requests tolerate unknown body fields (the create
succeeds and stores the cast document), but the stored record contains no
field outside the collection's schema paths; schema fields present in the
body are persisted with their submitted values. -/
theorem create_tolerates_strips_unknown (env : Env) (req : Request)
    (st : Store) (c : Claims)
    (hauth : authGate env.cfg.jwtSecret env.now req.authorization
      = AuthOutcome.authorized c) :
    (handle env Route.postProperties req st
      = ({ st with properties :=
            st.properties ++ [newModel propertyPaths "createdAt" env.now req.body] },
         Resp.okData (newModel propertyPaths "createdAt" env.now req.body))) ∧
    (handle env Route.postTeam req st
      = ({ st with team :=
            st.team ++ [newModel teamPaths "createdAt" env.now req.body] },
         Resp.okData (newModel teamPaths "createdAt" env.now req.body))) ∧
    (∀ paths ts body k n, paths.contains k = false → paths.contains ts = true →
      lookupField (newModel paths ts n body) k = none) ∧
    (∀ paths ts body k n v, paths.contains k = true →
      lookupField body k = some v →
      lookupField (newModel paths ts n body) k = some v) := by
  refine ⟨?_, ?_, ?_, ?_⟩
  · simp [handle, withAuth, hauth]
  · simp [handle, withAuth, hauth]
  · intro paths ts body k n hk hts
    exact lookupField_newModel_not_mem n body hk hts
  · intro paths ts body k n v hk hv
    exact lookupField_newModel_of_mem ts n hk hv

/-- C4 amended witness: the concrete authorized create with an unknown
field stores exactly the schema fields plus the timestamp default. -/
theorem create_tolerates_strips_unknown_witness :
    handle demoEnv Route.postProperties
        ⟨demoAuth, [("title", Value.str "T"), ("unknownField", Value.str "x")]⟩
        emptyStore
      = (⟨[[("title", Value.str "T"), ("createdAt", Value.num 5)]], [], [], []⟩,
         Resp.okData [("title", Value.str "T"), ("createdAt", Value.num 5)]) := by
  have h := (create_tolerates_strips_unknown demoEnv
    ⟨demoAuth, [("title", Value.str "T"), ("unknownField", Value.str "x")]⟩
    emptyStore ⟨"a", "admin"⟩ (by decide)).1
  rw [h]
  decide

/-- C8: POST /api/contact appends a record carrying the submitted known
fields, a server-generated nonempty id string derived from the clock, and a
creation timestamp; the response carries that record, and a subsequent
GET /api/contact lists it first when it is the newest contact. -/
theorem contact_create_roundtrip (env : Env) (req : Request) (st : Store)
    (c : Record)
    (hts : lookupField req.body "created_at" = none)
    (hc : c = newModel contactPaths "created_at" env.now
      (setField req.body "id" (Value.str (toString env.now)))) :
    (handle env Route.postContact req st
      = ({ st with contacts := st.contacts ++ [c] }, Resp.okData c)) ∧
    lookupField c "id" = some (Value.str (toString env.now)) ∧
    toString env.now ≠ "" ∧
    lookupField c "created_at" = some (Value.num env.now) ∧
    (∀ k v, (k = "name" ∨ k = "email" ∨ k = "message") →
      lookupField req.body k = some v → lookupField c k = some v) ∧
    ((∀ r ∈ st.contacts, getCreated r < env.now) →
      (handle env Route.getContact req
          ((handle env Route.postContact req st).1)).2
        = Resp.okList (c :: sortByCreatedDesc st.contacts)) := by
  have hcreated : lookupField c "created_at" = some (Value.num env.now) := by
    rw [hc]
    apply lookupField_newModel_ts
    · decide
    · rw [lookupField_setField_other _ _ (by decide)]
      exact hts
  refine ⟨?_, ?_, intToString_ne_empty env.now, hcreated, ?_, ?_⟩
  · rw [hc]; simp [handle]
  · rw [hc]
    exact lookupField_newModel_of_mem _ _ (by decide)
      (lookupField_setField_self _ _ _)
  · intro k v hk hv
    rw [hc]
    have hkmem : contactPaths.contains k = true := by
      rcases hk with h | h | h <;> subst h <;> decide
    have hkid : k ≠ "id" := by
      rcases hk with h | h | h <;> subst h <;> decide
    apply lookupField_newModel_of_mem _ _ hkmem
    rw [lookupField_setField_other _ _ hkid]
    exact hv
  · intro hmax
    have hgc : getCreated c = env.now := by
      unfold getCreated
      rw [hcreated]
    have hpost : (handle env Route.postContact req st).1
        = { st with contacts := st.contacts ++ [c] } := by
      rw [hc]; simp [handle]
    rw [hpost]
    show Resp.okList (sortByCreatedDesc (st.contacts ++ [c]))
      = Resp.okList (c :: sortByCreatedDesc st.contacts)
    rw [sortByCreatedDesc_append_max]
    intro r hr
    rw [hgc]
    exact hmax r hr

/-- C8 witness: the specification's scenario — an unauthenticated contact
submission of Bob's message at clock 5 — stores and returns the record with
generated id "5" and timestamp 5. -/
theorem contact_create_roundtrip_witness :
    (handle demoEnv Route.postContact ⟨none, demoContactBody⟩ emptyStore).2
      = Resp.okData [("name", Value.str "Bob"), ("email", Value.str "b@x.com"),
                     ("message", Value.str "Hi"), ("id", Value.str "5"),
                     ("created_at", Value.num 5)] := by
  have h := (contact_create_roundtrip demoEnv ⟨none, demoContactBody⟩ emptyStore
    (newModel contactPaths "created_at" demoEnv.now
      (setField demoContactBody "id" (Value.str (toString demoEnv.now))))
    (by decide) rfl).1
  rw [h]
  decide

/-- C10: for the public creates POST /api/contact and POST /api/leads the
stored record's id — and hence the id in the returned data — is always the
server-generated current-time string, overriding any caller-supplied id in
the body. -/
theorem public_create_ignores_caller_id (env : Env) (req : Request)
    (st : Store) :
    (handle env Route.postContact req st
      = ({ st with contacts := st.contacts ++
            [newModel contactPaths "created_at" env.now
              (setField req.body "id" (Value.str (toString env.now)))] },
         Resp.okData (newModel contactPaths "created_at" env.now
           (setField req.body "id" (Value.str (toString env.now)))))) ∧
    (handle env Route.postLeads req st
      = ({ st with leads := st.leads ++
            [newModel leadPaths "created_at" env.now
              (setField req.body "id" (Value.str (toString env.now)))] },
         Resp.okData (newModel leadPaths "created_at" env.now
           (setField req.body "id" (Value.str (toString env.now)))))) ∧
    lookupField (newModel contactPaths "created_at" env.now
        (setField req.body "id" (Value.str (toString env.now)))) "id"
      = some (Value.str (toString env.now)) ∧
    lookupField (newModel leadPaths "created_at" env.now
        (setField req.body "id" (Value.str (toString env.now)))) "id"
      = some (Value.str (toString env.now)) := by
  refine ⟨by simp [handle], by simp [handle], ?_, ?_⟩
  · exact lookupField_newModel_of_mem _ _ (by decide)
      (lookupField_setField_self _ _ _)
  · exact lookupField_newModel_of_mem _ _ (by decide)
      (lookupField_setField_self _ _ _)

end SSP
